import Mathlib

/-!
Verification of the fetch-and-extract core in `src/src-tauri/src/fetcher.rs`
(`ArchonFetcher`).

Modelling conventions:

* An HTML document is modelled by the sequence of its anchor (`<a>`) elements
  in document order.  The HTML parser (`scraper::Html::parse_document`, an
  external library) is kept abstract: `fetch_talent_build` receives it as a
  parameter `parseDoc`.  Only the link-target (`href`) attribute of an anchor
  is ever consulted by the code, so an anchor is modelled by its optional
  `href` value.
* The CSS selector machinery (`scraper::Selector::parse`, an external
  library) is modelled for the grammar fragment the code uses: an attribute
  substring selector `element[attrName*=QUOTE value QUOTE]`.  Matching an
  anchor against such a selector requires the element name to be `a` and the
  named attribute to be present with the quoted string as a substring of its
  value, which is exactly the CSS `*=` semantics used by the crate.
* The HTTP layer (`reqwest`, an external library) is kept abstract as a
  `FetchWorld` value describing the outcome of the single GET request: a
  transport-level failure, or a response with a numeric status code and a
  body whose read may fail.  Semaphore acquisition is likewise a value that
  either succeeds or fails.
* `fetch_talent_build` returns both its `Result<Option<String>>` value and
  the list of diagnostic lines printed with `eprintln!`, in order.
* The concurrency gate (`tokio::sync::Semaphore` with
  `MAX_CONCURRENT_REQUESTS` permits) is modelled as a labelled transition
  system over the phases of the logical fetch tasks: a task waits for a
  permit, holds it while executing the HTTP interaction, and releases it
  when its call completes (the RAII `_permit` guard drops on every exit
  path of the function body).
-/

/-- The constant `MAX_CONCURRENT_REQUESTS: usize = 5` from the source. -/
def MAX_CONCURRENT_REQUESTS : Nat := 5

/-- The constant `WOWHEAD_PREFIX` from the source: the exact link-target
form required for extraction. -/
def WOWHEAD_PREFIX : String := "https://www.wowhead.com/talent-calc/blizzard/"

/-- The substring used inside the CSS selector literal at line 88 of the
source to select qualifying anchors. -/
def SELECTOR_SUBSTRING : String := "wowhead.com/talent-calc/blizzard/"

/-- A single-quote character, written with a hex escape. -/
def QUOTE : String := "\x27"

/-- The CSS selector literal from line 88 of the source. -/
def SELECTOR_STRING : String :=
  "a[href*=" ++ QUOTE ++ SELECTOR_SUBSTRING ++ QUOTE ++ "]"

/-- An anchor element of the parsed document, modelled by its optional
link-target attribute (the only attribute the code consults). -/
structure Anchor where
  href : Option String
deriving DecidableEq

/-- Attribute lookup on an anchor, as in `element.value().attr("href")`.
Only the `href` attribute is modelled. -/
def Anchor.attrVal (a : Anchor) (name : String) : Option String :=
  if name = "href" then a.href else none

/-- Substring test on character lists: does `pat` occur contiguously
inside `s`? -/
def charsContain (s pat : List Char) : Bool :=
  match s with
  | [] => pat.isEmpty
  | c :: rest => pat.isPrefixOf (c :: rest) || charsContain rest pat

/-- Substring test on strings, the semantics of the CSS `*=` attribute
operator (case-sensitive containment). -/
def containsSubstr (s pat : String) : Bool :=
  charsContain s.data pat.data

/-- An anchor qualifies when its link-target attribute is present and
contains `SELECTOR_SUBSTRING`: this is what the selector
`a[href*=QUOTE wowhead.com/talent-calc/blizzard/ QUOTE]` selects. -/
def qualifies (a : Anchor) : Bool :=
  match a.href with
  | some v => containsSubstr v SELECTOR_SUBSTRING
  | none => false

/-- A parsed attribute-substring CSS selector `element[attrName*=value]`. -/
structure Selector where
  element : String
  attrName : String
  substrVal : String
deriving DecidableEq

/-- Split a character list at the first occurrence of `c`, returning the
parts before and after it, or `none` when `c` does not occur. -/
def splitAtChar (c : Char) : List Char → Option (List Char × List Char)
  | [] => none
  | x :: xs =>
    if x == c then some ([], xs)
    else
      match splitAtChar c xs with
      | some (l, r) => some (x :: l, r)
      | none => none

/-- The single-quote character. -/
def quoteChar : Char := '\x27'

/-- Parser for the selector grammar fragment used by the code,
`element[attrName*=QUOTE value QUOTE]`, standing in for
`scraper::Selector::parse` (an external library) on this fragment.
Anything outside the fragment is a parse error. -/
def Selector.parse (s : String) : Except String Selector :=
  match splitAtChar '[' s.data with
  | none => Except.error "expected attribute block"
  | some (elemCs, rest) =>
    match splitAtChar quoteChar rest with
    | none => Except.error "expected quoted value"
    | some (opCs, afterOpen) =>
      match splitAtChar quoteChar afterOpen with
      | none => Except.error "unterminated quoted value"
      | some (valueCs, tailCs) =>
        match opCs.reverse with
        | '=' :: '*' :: attrRev =>
          if elemCs.isEmpty || attrRev.isEmpty then
            Except.error "empty element or attribute name"
          else if tailCs == [']'] then
            Except.ok ⟨⟨elemCs⟩, ⟨attrRev.reverse⟩, ⟨valueCs⟩⟩
          else Except.error "trailing characters"
        | _ => Except.error "unsupported attribute operator"

/-- CSS matching of an anchor against an attribute-substring selector:
the element name must be `a` (all modelled elements are anchors) and the
named attribute must be present with `substrVal` as a substring. -/
def Anchor.matches (sel : Selector) (a : Anchor) : Bool :=
  sel.element == "a" &&
    match Anchor.attrVal a sel.attrName with
    | some v => containsSubstr v sel.substrVal
    | none => false

/-- Rust `str::strip_prefix`: when `s` starts with `p`, the remainder of
`s` after `p`, verbatim; otherwise `none`. -/
def strip_prefix (p s : String) : Option String :=
  if p.data.isPrefixOf s.data then some ⟨s.data.drop p.data.length⟩ else none

/-- The extractor `ArchonFetcher::extract_talent_string` (source lines
84-110), over the parsed document: parse the constant selector, take the
first matching anchor in document order, read its `href` attribute, and
strip `WOWHEAD_PREFIX` from it. -/
def extract_talent_string (doc : List Anchor) : Except String (Option String) :=
  match Selector.parse SELECTOR_STRING with
  | Except.error e => Except.error ("Invalid selector: " ++ e)
  | Except.ok selector =>
    match doc.find? (Anchor.matches selector) with
    | none => Except.ok none
    | some element =>
      match Anchor.attrVal element "href" with
      | none => Except.ok none
      | some href =>
        match strip_prefix WOWHEAD_PREFIX href with
        | some talent_string => Except.ok (some talent_string)
        | none => Except.ok none

/-- The identifier the extractor derives from one selected anchor: its
`href` value with `WOWHEAD_PREFIX` stripped, when both steps succeed. -/
def anchor_identifier (a : Anchor) : Option String :=
  match Anchor.attrVal a "href" with
  | none => none
  | some href =>
    match strip_prefix WOWHEAD_PREFIX href with
    | some t => some t
    | none => none

/-- Outcome of the single `client.get(url).send().await` call: a
transport-level failure, or a response carrying a status code and a body
whose read (`response.text().await`) may itself fail. -/
inductive SendResult where
  | transportErr (msg : String)
  | response (status : Nat) (body : Except String String)

/-- The environment of one `fetch_talent_build` call: the result of the
semaphore acquisition and the result of the HTTP send. -/
structure FetchWorld where
  acquire : Except String Unit
  send : SendResult

/-- The status code `StatusCode::INTERNAL_SERVER_ERROR`. -/
def INTERNAL_SERVER_ERROR : Nat := 500

/-- The `StatusCode::is_success` test: a 2xx status code. -/
def is_success (status : Nat) : Bool :=
  decide (200 ≤ status) && decide (status < 300)

/-- The fetcher `ArchonFetcher::fetch_talent_build` (source lines 45-79).
Returns the `Result<Option<String>>` value together with the diagnostic
lines printed with `eprintln!`.  The HTML parser is the abstract
parameter `parseDoc`. -/
def fetch_talent_build (parseDoc : String → List Anchor) (w : FetchWorld)
    (url : String) : Except String (Option String) × List String :=
  match w.acquire with
  | Except.error e =>
    (Except.error ("Failed to acquire semaphore permit: " ++ e), [])
  | Except.ok _ =>
    match w.send with
    | SendResult.transportErr e =>
      (Except.ok none, ["Failed to fetch " ++ url ++ ": " ++ e])
    | SendResult.response status body =>
      if status = INTERNAL_SERVER_ERROR then
        (Except.ok none, [])
      else if !(is_success status) then
        (Except.ok none, ["HTTP " ++ toString status ++ " for " ++ url])
      else
        match body with
        | Except.error e =>
          (Except.error ("Failed to read response body: " ++ e), [])
        | Except.ok html =>
          match extract_talent_string (parseDoc html) with
          | Except.error e => (Except.error e, [])
          | Except.ok t => (Except.ok t, [])

/-- Phase of one logical fetch task with respect to the concurrency gate:
waiting for a permit, holding a permit while executing the HTTP
interaction, or finished (permit released). -/
inductive TaskPhase where
  | waiting
  | busy
  | finished
deriving DecidableEq

/-- Number of tasks currently holding a permit, i.e. concurrently
executing HTTP I/O. -/
def busyCount : List TaskPhase → Nat
  | [] => 0
  | TaskPhase.busy :: rest => busyCount rest + 1
  | TaskPhase.waiting :: rest => busyCount rest
  | TaskPhase.finished :: rest => busyCount rest

/-- Transitions of the gate system: a waiting task may acquire a permit
only while fewer than `MAX_CONCURRENT_REQUESTS` tasks hold one, and a
task holding a permit releases it when its call completes (on every exit
path, by the RAII `_permit` guard). -/
inductive GateStep : List TaskPhase → List TaskPhase → Prop where
  | acquire (pre post : List TaskPhase)
      (h : busyCount (pre ++ TaskPhase.waiting :: post) < MAX_CONCURRENT_REQUESTS) :
      GateStep (pre ++ TaskPhase.waiting :: post) (pre ++ TaskPhase.busy :: post)
  | release (pre post : List TaskPhase) :
      GateStep (pre ++ TaskPhase.busy :: post) (pre ++ TaskPhase.finished :: post)

/-- States reachable from `K` simultaneous callers, all initially
waiting on the gate. -/
inductive GateReachable (K : Nat) : List TaskPhase → Prop where
  | init : GateReachable K (List.replicate K TaskPhase.waiting)
  | step {s t : List TaskPhase} :
      GateReachable K s → GateStep s t → GateReachable K t

/-- Termination measure of the gate system: waiting tasks still need two
transitions, busy tasks one. -/
def gateMeasure : List TaskPhase → Nat
  | [] => 0
  | TaskPhase.waiting :: rest => gateMeasure rest + 2
  | TaskPhase.busy :: rest => gateMeasure rest + 1
  | TaskPhase.finished :: rest => gateMeasure rest

/-! Helper lemmas about the extractor. -/

/-- The constant selector literal from the source parses, to the
attribute-substring selector on anchors with `SELECTOR_SUBSTRING`. -/
theorem selector_parse_eval :
    Selector.parse SELECTOR_STRING =
      Except.ok ⟨"a", "href", SELECTOR_SUBSTRING⟩ := rfl

/-- Matching an anchor against the parsed selector agrees with
`qualifies`. -/
theorem matches_wowhead (a : Anchor) :
    Anchor.matches ⟨"a", "href", SELECTOR_SUBSTRING⟩ a = qualifies a := by
  cases a with
  | mk h? => cases h? <;> rfl

/-- Characterization of the extractor: it always succeeds, returning the
identifier derived from the first qualifying anchor, when one exists. -/
theorem extract_eq (doc : List Anchor) :
    extract_talent_string doc =
      Except.ok ((doc.find? qualifies).bind anchor_identifier) := by
  have hm : Anchor.matches ⟨"a", "href", SELECTOR_SUBSTRING⟩ = qualifies :=
    funext matches_wowhead
  unfold extract_talent_string
  rw [selector_parse_eval]
  simp only [hm]
  cases hfind : doc.find? qualifies with
  | none => rfl
  | some a =>
    cases a with
    | mk h? =>
      cases h? with
      | none => rfl
      | some href =>
        cases hs : strip_prefix WOWHEAD_PREFIX href <;>
          simp [anchor_identifier, Anchor.attrVal, hs]

/-- Stripping a prefix from the concatenation returns the remainder
verbatim. -/
theorem strip_prefix_append (p s : String) : strip_prefix p (p ++ s) = some s := by
  have hpre : p.data.isPrefixOf (p.data ++ s.data) = true := by
    rw [List.isPrefixOf_iff_prefix]
    exact List.prefix_append _ _
  simp only [ strip_prefix, String.data_append, hpre, if_true]
  rw [List.drop_left]

/-- Stripping a string from itself leaves the empty remainder. -/
theorem strip_prefix_self (p : String) : strip_prefix p p = some "" := by
  have h := strip_prefix_append p ""
  rwa [String.append_empty] at h

/-- When prefix stripping succeeds, the input is the prefix followed by
the remainder. -/
theorem strip_prefix_eq_append {p s t : String}
    (h : strip_prefix p s = some t) : s = p ++ t := by
  cases hpre : p.data.isPrefixOf s.data with
  | false => simp [ strip_prefix, hpre] at h
  | true =>
    obtain ⟨r, hr⟩ := List.isPrefixOf_iff_prefix.mp hpre
    simp only [ strip_prefix, hpre, if_true] at h
    apply String.ext
    rw [String.data_append, ← hr]
    have hdrop : (p.data ++ r).drop p.data.length = r := List.drop_left _ _
    have ht : t.data = s.data.drop p.data.length := by
      cases h; rfl
    rw [ht, ← hr, hdrop]

/-- The first match of `find?` over a decomposed list whose front does
not satisfy the predicate. -/
theorem find?_append_first {α : Type} {pre post : List α} {p : α → Bool} {a : α}
    (hpre : ∀ b ∈ pre, p b = false) (ha : p a = true) :
    (pre ++ a :: post).find? p = some a := by
  induction pre with
  | nil => simp [List.find?_cons_of_pos _ ha]
  | cons x xs ih =>
    have hx : p x = false := hpre x (by simp)
    rw [List.cons_append, List.find?_cons_of_neg _ (by simp [hx])]
    exact ih fun b hb => hpre b (by simp [hb])

/-! Claim theorems about the extractor. -/

/-- C1: for every document whose qualifying anchors are exactly one
anchor whose link-target is exactly `WOWHEAD_PREFIX ++ s` with `s`
non-empty, `extract_talent_string` returns `Some s`, verbatim. -/
theorem extract_unique_exact_anchor (doc : List Anchor) (s : String)
    (_hs : s ≠ "")
    (hq : doc.filter qualifies = [Anchor.mk (some ( WOWHEAD_PREFIX ++ s))]) :
    extract_talent_string doc = Except.ok (some s) := by
  have hfind : doc.find? qualifies =
      some (Anchor.mk (some ( WOWHEAD_PREFIX ++ s))) := by
    rw [← List.filter_head?, hq]
    rfl
  rw [extract_eq, hfind]
  simp [anchor_identifier, Anchor.attrVal, strip_prefix_append]

/-- Witness for C1 at a concrete document. -/
theorem extract_unique_exact_anchor_witness :
    extract_talent_string [Anchor.mk (some ( WOWHEAD_PREFIX ++ "x"))] =
      Except.ok (some "x") :=
  extract_unique_exact_anchor _ "x" (by decide) (by decide)

/-- C2: with two or more qualifying anchors, the extractor returns the
identifier derived from the first qualifying anchor in document order;
all later matches are ignored. -/
theorem extract_first_of_many (pre post : List Anchor) (a : Anchor)
    (hpre : ∀ b ∈ pre, qualifies b = false)
    (ha : qualifies a = true)
    (_hpost : 0 < (post.filter qualifies).length) :
    extract_talent_string (pre ++ a :: post) =
      Except.ok (anchor_identifier a) := by
  rw [extract_eq, find?_append_first hpre ha]
  rfl

/-- Witness for C2 at a concrete document with two qualifying anchors. -/
theorem extract_first_of_many_witness :
    extract_talent_string
        [Anchor.mk none,
         Anchor.mk (some ( WOWHEAD_PREFIX ++ "first")),
         Anchor.mk (some ( WOWHEAD_PREFIX ++ "second"))] =
      Except.ok (anchor_identifier (Anchor.mk (some ( WOWHEAD_PREFIX ++ "first")))) :=
  extract_first_of_many [Anchor.mk none]
    [Anchor.mk (some ( WOWHEAD_PREFIX ++ "second"))]
    (Anchor.mk (some ( WOWHEAD_PREFIX ++ "first")))
    (by decide) (by decide) (by decide)

/-- C3: when the first qualifying anchor's link-target does not start
with the exact `WOWHEAD_PREFIX`, extraction returns `None`; the looser
substring match used for selection is insufficient for extraction. -/
theorem extract_inexact_first_anchor (doc : List Anchor) (a : Anchor)
    (h : String)
    (hfind : doc.find? qualifies = some a)
    (hhref : a.href = some h)
    (hnp : (String.data WOWHEAD_PREFIX).isPrefixOf h.data = false) :
    extract_talent_string doc = Except.ok none := by
  have hstrip : strip_prefix WOWHEAD_PREFIX h = none := by
    unfold strip_prefix
    rw [hnp]
    simp
  rw [extract_eq, hfind]
  simp [anchor_identifier, Anchor.attrVal, hhref, hstrip]

/-- Witness for C3: a link-target containing the selection substring
under a different protocol. -/
theorem extract_inexact_first_anchor_witness :
    extract_talent_string
        [Anchor.mk (some "http://wowhead.com/talent-calc/blizzard/x")] =
      Except.ok none :=
  extract_inexact_first_anchor
    [Anchor.mk (some "http://wowhead.com/talent-calc/blizzard/x")]
    (Anchor.mk (some "http://wowhead.com/talent-calc/blizzard/x"))
    "http://wowhead.com/talent-calc/blizzard/x"
    (by decide) (by decide) (by decide)

/-- C7: when the first qualifying anchor's link-target is exactly
`WOWHEAD_PREFIX` with nothing after it, extraction returns `Some ""`,
not `None`. -/
theorem extract_exact_bare_anchor (doc : List Anchor)
    (hfind : doc.find? qualifies = some (Anchor.mk (some WOWHEAD_PREFIX))) :
    extract_talent_string doc = Except.ok (some "") := by
  rw [extract_eq, hfind]
  simp [anchor_identifier, Anchor.attrVal, strip_prefix_self]

/-- Witness for C7 at a concrete document. -/
theorem extract_exact_bare_anchor_witness :
    extract_talent_string [Anchor.mk (some WOWHEAD_PREFIX)] =
      Except.ok (some "") :=
  extract_exact_bare_anchor _ (by decide)

/-- C8 counterexample: the extractor can return `Some ""`, so extracted
identifiers are not guaranteed non-empty. -/
theorem extract_empty_identifier_counterexample :
    extract_talent_string [Anchor.mk (some WOWHEAD_PREFIX)] =
        Except.ok (some "") ∧
      ¬ (∀ (doc : List Anchor) (s : String),
          extract_talent_string doc = Except.ok (some s) → s ≠ "") :=
  ⟨rfl, fun hall => hall [Anchor.mk (some WOWHEAD_PREFIX)] "" rfl rfl⟩

/-- C8 amended: an extracted identifier is non-empty unless the first
qualifying anchor's link-target is exactly `WOWHEAD_PREFIX`, in which
case it is the empty string. -/
theorem extract_identifier_nonempty_unless_bare (doc : List Anchor)
    (s : String)
    (h : extract_talent_string doc = Except.ok (some s)) :
    s ≠ "" ∨ doc.find? qualifies = some (Anchor.mk (some WOWHEAD_PREFIX)) := by
  rw [extract_eq] at h
  have h2 : (doc.find? qualifies).bind anchor_identifier = some s := by
    injection h
  cases hfind : doc.find? qualifies with
  | none => rw [hfind] at h2; cases h2
  | some a =>
    rw [hfind] at h2
    cases a with
    | mk h? =>
      cases h? with
      | none => simp [anchor_identifier, Anchor.attrVal] at h2
      | some href =>
        cases hs : strip_prefix WOWHEAD_PREFIX href with
        | none => simp [anchor_identifier, Anchor.attrVal, hs] at h2
        | some t =>
          have ht : t = s := by
            simpa [anchor_identifier, Anchor.attrVal, hs] using h2
          subst ht
          by_cases hse : t = ""
          · subst hse
            have hh : href = WOWHEAD_PREFIX ++ "" := strip_prefix_eq_append hs
            rw [String.append_empty] at hh
            subst hh
            exact Or.inr rfl
          · exact Or.inl hse

/-- Witness for the amended C8 at a concrete document. -/
theorem extract_identifier_nonempty_unless_bare_witness :
    ("x" : String) ≠ "" ∨
      List.find? qualifies [Anchor.mk (some ( WOWHEAD_PREFIX ++ "x"))] =
        some (Anchor.mk (some WOWHEAD_PREFIX)) :=
  extract_identifier_nonempty_unless_bare
    [Anchor.mk (some ( WOWHEAD_PREFIX ++ "x"))] "x" rfl

/-- C10: the constant selector literal parses, so the extractor's error
branch is unreachable: it totally returns `Ok` on every document. -/
theorem extract_never_errors :
    (∃ sel, Selector.parse SELECTOR_STRING = Except.ok sel) ∧
      ∀ doc : List Anchor, ∃ o, extract_talent_string doc = Except.ok o :=
  ⟨⟨_, rfl⟩, fun doc => ⟨_, extract_eq doc⟩⟩

/-! Claim theorems about the fetcher. -/

/-- C4: a response with status 500 yields `Ok none` (`NotFound`), not
`Failed`, for every body and every HTML parser: the body is never read
or passed to the extractor. -/
theorem fetch_http_500_not_found (parseDoc : String → List Anchor)
    (url : String) (body : Except String String) :
    fetch_talent_build parseDoc ⟨Except.ok (), SendResult.response 500 body⟩
        url =
      (Except.ok none, []) := rfl

/-- C5: a response with a 2xx status whose body cannot be read yields
the `Failed` outcome carrying the propagated cause. -/
theorem fetch_unreadable_body_failed (parseDoc : String → List Anchor)
    (url e : String) (status : Nat) (hs : is_success status = true) :
    fetch_talent_build parseDoc
        ⟨Except.ok (), SendResult.response status (Except.error e)⟩ url =
      (Except.error ("Failed to read response body: " ++ e), []) := by
  have h1 : 200 ≤ status ∧ status < 300 := by
    simpa [is_success] using hs
  have h500 : ¬ status = INTERNAL_SERVER_ERROR := by
    simp only [INTERNAL_SERVER_ERROR]
    omega
  simp [fetch_talent_build, h500, hs]

/-- Witness for C5 at status 200. -/
theorem fetch_unreadable_body_failed_witness :
    fetch_talent_build (fun _ => [])
        ⟨Except.ok (), SendResult.response 200 (Except.error "boom")⟩ "u" =
      (Except.error ("Failed to read response body: " ++ "boom"), []) :=
  fetch_unreadable_body_failed (fun _ => []) "u" "boom" 200 (by decide)

/-- C6: a transport-level failure yields `Ok none` after emitting a
diagnostic line, and so does every non-success status other than 500. -/
theorem fetch_degrades_to_not_found (parseDoc : String → List Anchor)
    (url e : String) (status : Nat) (body : Except String String) :
    fetch_talent_build parseDoc ⟨Except.ok (), SendResult.transportErr e⟩
        url =
      (Except.ok none, ["Failed to fetch " ++ url ++ ": " ++ e]) ∧
    (is_success status = false → status ≠ 500 →
      fetch_talent_build parseDoc
          ⟨Except.ok (), SendResult.response status body⟩ url =
        (Except.ok none, ["HTTP " ++ toString status ++ " for " ++ url])) := by
  constructor
  · rfl
  · intro hs h500
    simp [fetch_talent_build, INTERNAL_SERVER_ERROR, h500, hs]

/-- Witness for C6 at a concrete transport failure and at status 404. -/
theorem fetch_degrades_to_not_found_witness :
    fetch_talent_build (fun _ => [])
        ⟨Except.ok (), SendResult.transportErr "refused"⟩ "u" =
      (Except.ok none, ["Failed to fetch " ++ "u" ++ ": " ++ "refused"]) ∧
    fetch_talent_build (fun _ => [])
        ⟨Except.ok (), SendResult.response 404 (Except.ok "")⟩ "u" =
      (Except.ok none, ["HTTP " ++ toString 404 ++ " for " ++ "u"]) := by
  have h := fetch_degrades_to_not_found (fun _ => []) "u" "refused" 404
    (Except.ok "")
  exact ⟨h.1, h.2 (by decide) (by decide)⟩

/-! Helper lemmas about the concurrency gate. -/

/-- The busy count distributes over list concatenation. -/
theorem busyCount_append (l₁ l₂ : List TaskPhase) :
    busyCount (l₁ ++ l₂) = busyCount l₁ + busyCount l₂ := by
  induction l₁ with
  | nil => simp [busyCount]
  | cons x xs ih =>
    cases x <;> simp [busyCount, ih] <;> omega

/-- Initially no task holds a permit. -/
theorem busyCount_replicate_waiting (K : Nat) :
    busyCount (List.replicate K TaskPhase.waiting) = 0 := by
  induction K with
  | zero => rfl
  | succ k ih => simpa [List.replicate, busyCount] using ih

/-- Every reachable state of the gate system keeps the number of
permit-holders at or below the capacity. -/
theorem gate_invariant {K : Nat} {s : List TaskPhase}
    (h : GateReachable K s) : busyCount s ≤ MAX_CONCURRENT_REQUESTS := by
  induction h with
  | init => simp [busyCount_replicate_waiting, MAX_CONCURRENT_REQUESTS]
  | step _ hst ih =>
    cases hst with
    | acquire pre post hlt =>
      rw [busyCount_append] at hlt ⊢
      simp only [busyCount] at hlt ⊢
      omega
    | release pre post =>
      rw [busyCount_append] at ih ⊢
      simp only [busyCount] at ih ⊢
      omega

/-- A positive busy count exhibits a busy task. -/
theorem busy_mem_of_pos {l : List TaskPhase} (h : 0 < busyCount l) :
    TaskPhase.busy ∈ l := by
  induction l with
  | nil => simp [busyCount] at h
  | cons x xs ih =>
    cases x with
    | busy => exact List.mem_cons_self _ _
    | waiting =>
      simp only [busyCount] at h
      exact List.mem_cons_of_mem _ (ih h)
    | finished =>
      simp only [busyCount] at h
      exact List.mem_cons_of_mem _ (ih h)

/-- A state of the gate system with no enabled transition has every
task finished: no waiter is left unserviced and no permit is leaked. -/
theorem gate_no_stuck {s : List TaskPhase}
    (hstuck : ∀ t, ¬ GateStep s t) : ∀ p ∈ s, p = TaskPhase.finished := by
  intro p hp
  cases p with
  | finished => rfl
  | busy =>
    obtain ⟨pre, post, rfl⟩ := List.append_of_mem hp
    exact absurd (GateStep.release pre post) (hstuck _)
  | waiting =>
    obtain ⟨pre, post, rfl⟩ := List.append_of_mem hp
    by_cases hlt :
        busyCount (pre ++ TaskPhase.waiting :: post) < MAX_CONCURRENT_REQUESTS
    · exact absurd (GateStep.acquire pre post hlt) (hstuck _)
    · have hpos : 0 < busyCount (pre ++ TaskPhase.waiting :: post) := by
        simp only [MAX_CONCURRENT_REQUESTS] at hlt
        omega
      have hmem := busy_mem_of_pos hpos
      obtain ⟨pre2, post2, hdec⟩ := List.append_of_mem hmem
      rw [hdec] at hstuck
      exact absurd (GateStep.release pre2 post2) (hstuck _)

/-- Transitions strictly decrease the gate measure. -/
theorem gateMeasure_step {s t : List TaskPhase} (h : GateStep s t) :
    gateMeasure t < gateMeasure s := by
  have happ : ∀ l₁ l₂ : List TaskPhase,
      gateMeasure (l₁ ++ l₂) = gateMeasure l₁ + gateMeasure l₂ := by
    intro l₁ l₂
    induction l₁ with
    | nil => simp [gateMeasure]
    | cons x xs ih => cases x <;> simp [gateMeasure, ih] <;> omega
  cases h with
  | acquire pre post hlt =>
    rw [happ, happ]
    simp only [gateMeasure]
    omega
  | release pre post =>
    rw [happ, happ]
    simp only [gateMeasure]
    omega

/-- The gate system admits no infinite run: every maximal execution is
finite, hence ends in a state where `gate_no_stuck` applies. -/
theorem gate_terminates (f : Nat → List TaskPhase)
    (hstep : ∀ n, GateStep (f n) (f (n + 1))) : False := by
  have hdec : ∀ n, gateMeasure (f (n + 1)) < gateMeasure (f n) :=
    fun n => gateMeasure_step (hstep n)
  have hle : ∀ n, gateMeasure (f n) + n ≤ gateMeasure (f 0) := by
    intro n
    induction n with
    | zero => omega
    | succ k ih =>
      have := hdec k
      omega
  have := hle (gateMeasure (f 0) + 1)
  omega

/-- C9: for any number `K` of simultaneous callers, every reachable
state of the gate system has at most `MAX_CONCURRENT_REQUESTS` tasks
concurrently executing HTTP I/O; a reachable state with no enabled
transition has every task serviced to completion (each permit released);
and no execution runs forever, so waiters are eventually serviced. -/
theorem gate_bounds_concurrency (K : Nat) :
    (∀ s, GateReachable K s → busyCount s ≤ MAX_CONCURRENT_REQUESTS) ∧
    (∀ s, GateReachable K s → (∀ t, ¬ GateStep s t) →
      ∀ p ∈ s, p = TaskPhase.finished) ∧
    (∀ f : Nat → List TaskPhase, f 0 = List.replicate K TaskPhase.waiting →
      ¬ (∀ n, GateStep (f n) (f (n + 1)))) :=
  ⟨fun _ h => gate_invariant h,
   fun _ _ hstuck => gate_no_stuck hstuck,
   fun f _ hstep => gate_terminates f hstep⟩

/-- Witness for C9: seven simultaneous callers, after one of them
acquires a permit. -/
theorem gate_bounds_concurrency_witness :
    busyCount (TaskPhase.busy :: List.replicate 6 TaskPhase.waiting) ≤
      MAX_CONCURRENT_REQUESTS :=
  (gate_bounds_concurrency 7).1 _
    (GateReachable.step GateReachable.init
      (GateStep.acquire [] (List.replicate 6 TaskPhase.waiting) (by decide)))
